import Mathlib

/-!
Shallow embedding of the connectivity / track-tracing core of the board
editor (source file `class_board.cpp`): the data model (tracks, vias, pads,
modules), the chain-walk `chainMarkedSegments`, the trace builder
`MarkTrace`, the point-to-point path check `checkConnectedTo` /
`TracksInNetBetweenPoints`, and the board mutation entry points
`BOARD::Add` / `BOARD::Remove` together with the connectivity index they
notify.  Machine integers are modelled as `Int`/`Nat` (coordinates fit well
inside the C++ `int` range in all statements below, so no wrap-around
occurs); layer sets (`LSET`, a C++ bitset) are modelled as `Nat` bitmasks;
C++ exceptions (`THROW_IO_ERROR`) become `Except String`.
-/

/-- A board coordinate (`wxPoint`): integer x/y in internal units. -/
structure Point where
  x : Int
  y : Int
deriving DecidableEq

/-- `LSET`: a set of board layers, modelled as a `Nat` bitmask.
`(a &&& b) ≠ 0` is the C++ `(a & b).any()`. -/
abbrev LSET := Nat

/-- A single-layer `LSET`, as built by the C++ `LSET( layer )` constructor. -/
def lsetOfLayer (layer : Nat) : LSET := 2 ^ layer

/-- The dynamic type of an item living in the board's `m_Track` list:
`PCB_TRACE_T` (a copper segment) or `PCB_VIA_T` (a via). -/
inductive ItemKind where
  | trace
  | via
deriving DecidableEq

/-- A `TRACK` (segment or via) of the board's `m_Track` list.  `busy` is the
transient BUSY state flag used as the visited marker by the tracer; `id`
models C++ object identity (pointer equality).  For a via, `start = end_`
(its single position) and `layerSet` is its layer span. -/
structure TRACK where
  id : Nat
  kind : ItemKind
  start : Point
  end_ : Point
  layer : Nat
  layerSet : LSET
  netCode : Int
  busy : Bool
deriving DecidableEq

/-- A `D_PAD` of a footprint: position, layer set, net, and the configured
pad-to-die parasitic length. -/
structure PAD where
  id : Nat
  pos : Point
  layerSet : LSET
  netCode : Int
  padToDie : Int
deriving DecidableEq

/-- A `MODULE` (footprint): identity plus its pads. -/
structure MODULE where
  id : Nat
  pads : List PAD
deriving DecidableEq

/-- Modelled from the spec: the Connectivity Index (`m_connectivity`, whose
own implementation is not part of the given sources; only its callers are).
Per spec section 4.1 it keeps, per net, the list of member item references
(`members`, as (netId, itemId) registrations in insertion order) and a
spatial structure keyed by exact coordinate (`spatial`, as
(coordinate, itemId) entries). -/
structure ConnIndex where
  members : List (Int × Nat)
  spatial : List (Point × Nat)
deriving DecidableEq

/-- The `BOARD`: item containers, net registry, status word and the
connectivity index.  `tracks` is the `m_Track` list (segments and vias, in
list order); `modules` is `m_Modules`; the remaining containers are kept
only by item identity because no claim inspects their elements further. -/
structure Board where
  tracks : List TRACK
  zoneSegs : List Nat
  modules : List MODULE
  markers : List Nat
  zoneAreas : List Nat
  drawings : List Nat
  nets : List Int
  statusPcb : Nat
  conn : ConnIndex
deriving DecidableEq

/-- All pads of the board, in `m_Modules` iteration order (each module's
pads in order), as iterated by `BOARD::GetPadFast` / `BOARD::GetPad`. -/
def Board.allPads (b : Board) : List PAD :=
  (b.modules.map MODULE.pads).flatten

/-- `BOARD::GetPadFast( aPosition, aLayerSet )` (source lines 1630-1646):
the first pad whose position equals `aPosition` exactly and whose layer set
intersects `aLayerSet`; an exact match, no tolerance. -/
def GetPadFast (b : Board) (aPosition : Point) (aLayerSet : LSET) : Option PAD :=
  b.allPads.find? fun pad =>
    pad.pos == aPosition && (pad.layerSet &&& aLayerSet) != 0

/-- Modelled from the spec: `BOARD::GetPad( aPosition, aLayerSet )` (source
line 1595) delegates the per-pad test to `MODULE::GetPad`, which is not in
the given sources; per spec sections 4.1 (`FindAt`: exact coordinate match,
no tolerance, layer mask intersects) and 4.2 (chain step 1: "a Pad exists
exactly at position on layerMask") it is the exact-position lookup. -/
def boardGetPad (b : Board) (aPosition : Point) (aLayerSet : LSET) : Option PAD :=
  b.allPads.find? fun pad =>
    pad.pos == aPosition && (pad.layerSet &&& aLayerSet) != 0

/-- `otherEnd( aTrack, aNotThisEnd )` (source lines 205-216): the endpoint
of a track other than the given one (the C++ asserts the given point is one
of the two ends). -/
def otherEnd (t : TRACK) (aNotThisEnd : Point) : Point :=
  if t.start = aNotThisEnd then t.end_ else t.start

/-- `removeTrack( aList, aOneToRemove )` (source lines 198-202): erase every
occurrence (pointer equality = same `id`) of a track from a non-owning list. -/
def removeTrack (aList : List TRACK) (aOneToRemove : TRACK) : List TRACK :=
  aList.filter fun t => t.id != aOneToRemove.id

/-- Coordinate rendering used inside the diagnostic strings
(`BOARD_ITEM::FormatInternalUnits`; the C++ converts to millimetres, a
pure formatting concern immaterial to every claim, so the model renders the
raw internal units). -/
def fmtPt (p : Point) : String :=
  toString p.x ++ " " ++ toString p.y

/-- The "intervening pad" diagnostic thrown by `checkConnectedTo`. -/
def interveningPadMsg (next aStart aGoal : Point) : String :=
  "intervening pad at:(xy " ++ fmtPt next ++ ") between start:(xy " ++ fmtPt aStart
    ++ ") and goal:(xy " ++ fmtPt aGoal ++ ")"

/-- The "tracks intersecting" junction diagnostic thrown by
`checkConnectedTo`; its printed count reproduces the C++ expression
`track_count + aList->size() == 1 ? 1 : 0` with C++ precedence, i.e.
`(track_count + aList->size()) == 1 ? 1 : 0`. -/
def junctionMsg (trackCount : Int) (listSize : Nat) (next : Point) : String :=
  "found " ++ toString (if trackCount + (listSize : Int) = 1 then (1 : Int) else 0)
    ++ " tracks intersecting at (xy " ++ fmtPt next ++ "), exactly 2 would be acceptable."

/-- The "not enough tracks" diagnostic thrown by `checkConnectedTo` when the
worklist is exhausted. -/
def notEnoughMsg (aStart aGoal : Point) : String :=
  "not enough tracks connecting start:(xy " ++ fmtPt aStart ++ ") and goal:(xy "
    ++ fmtPt aGoal ++ ")."

/-- The composite "no clean path" diagnostic thrown by
`TracksInNetBetweenPoints` when every candidate fails. -/
def noCleanPathMsg (aStartPos aGoalPos : Point) : String :=
  "no clean path connecting start:(xy " ++ fmtPt aStartPos ++ ") with goal:(xy "
    ++ fmtPt aGoalPos ++ ")"

/-- First pass of `find_vias_and_tracks_at` (source lines 224-240): walk
`in_net`, move every via sitting at `next` whose layer set intersects the
(growing) `lset` over to the collected list, or-ing each such via's span
into `lset` as it is met.  Returns (collected vias, remaining list, final
`lset`). -/
def fvatVias : List TRACK → LSET → Point → (List TRACK × List TRACK × LSET)
  | [], lset, _ => ([], [], lset)
  | t :: ts, lset, next =>
    if t.kind = ItemKind.via && (t.layerSet &&& lset) != 0
        && (t.start == next || t.end_ == next) then
      let r := fvatVias ts (lset ||| t.layerSet) next
      (t :: r.1, r.2.1, r.2.2)
    else
      let r := fvatVias ts lset next
      (r.1, t :: r.2.1, r.2.2)

/-- Second pass of `find_vias_and_tracks_at` (source lines 242-259): with
the expanded `lset`, move every remaining track with an end at `next` on an
intersecting layer to the collected list, counting them.  Returns
(collected tracks, remaining list). -/
def fvatTracks (lset : LSET) (next : Point) : List TRACK → (List TRACK × List TRACK)
  | [] => ([], [])
  | t :: ts =>
    if (t.layerSet &&& lset) != 0 && (t.start == next || t.end_ == next) then
      let r := fvatTracks lset next ts
      (t :: r.1, r.2)
    else
      let r := fvatTracks lset next ts
      (r.1, t :: r.2)

/-- `find_vias_and_tracks_at( at_next, in_net, lset, next )` (source lines
220-260): both passes combined.  Returns the items appended to the caller's
list (vias first, then tracks, in `in_net` order), the reduced `in_net`,
the expanded `lset`, and `track_count` (tracks only, vias excluded). -/
def find_vias_and_tracks_at (in_net : List TRACK) (lset : LSET) (next : Point) :
    (List TRACK × List TRACK × LSET × Nat) :=
  let v := fvatVias in_net lset next
  let tr := fvatTracks v.2.2 next v.2.1
  (v.1 ++ tr.1, tr.2, v.2.2, tr.1.length)

/-- The `while( in_net.size() )` loop of `checkConnectedTo` (source lines
288-323).  `fuel` only drives the structural recursion: every recursive
call strictly shrinks `in_net`, so with `fuel > in_net.length` the
fuel-exhausted branch (which mirrors the loop-guard exit) is never the one
taken with a non-empty worklist. -/
def cctLoop : Nat → Board → List TRACK → Point → LSET → Point → Point → List TRACK →
    Except String (List TRACK)
  | 0, _, _, _, _, aGoal, aStart, _ =>
    Except.error (notEnoughMsg aStart aGoal)
  | fuel + 1, aBoard, in_net, next, lset, aGoal, aStart, aList =>
    match in_net with
    | [] => Except.error (notEnoughMsg aStart aGoal)
    | _ :: _ =>
      if next = aGoal then
        Except.ok aList
      else if (GetPadFast aBoard next lset).isSome then
        Except.error (interveningPadMsg next aStart aGoal)
      else
        let f := find_vias_and_tracks_at in_net lset next
        let aList1 := aList ++ f.1
        if f.2.2.2 ≠ 1 then
          Except.error (junctionMsg (f.2.2.2 : Int) aList1.length next)
        else
          match aList1.getLast? with
          | none => Except.error (junctionMsg (f.2.2.2 : Int) aList1.length next)
          | some back =>
            cctLoop fuel aBoard f.2.1 (otherEnd back next) back.layerSet
              aGoal aStart aList1

/-- `checkConnectedTo( aBoard, aList, aTracksInNet, aGoal, aStart,
aFirstTrack )` (source lines 275-332): push `aFirstTrack`, remove it from
the worklist copy, seed `lset` with its single layer, then run the loop.
The C++ throws `IO_ERROR`; the model returns `Except.error` with the same
diagnostic text. -/
def checkConnectedTo (aBoard : Board) (aTracksInNet : List TRACK)
    (aGoal aStart : Point) (aFirstTrack : TRACK) : Except String (List TRACK) :=
  let next := otherEnd aFirstTrack aStart
  let in_net := removeTrack aTracksInNet aFirstTrack
  cctLoop (in_net.length + 1) aBoard in_net next (lsetOfLayer aFirstTrack.layer)
    aGoal aStart [aFirstTrack]

/-- `BOARD::TracksInNet( aNetCode )` (source lines 174-193): all `m_Track`
items (segments and vias) whose net code matches, in list order. -/
def TracksInNet (b : Board) (aNetCode : Int) : List TRACK :=
  b.tracks.filter fun t => t.netCode == aNetCode

/-- The candidate list of `TracksInNetBetweenPoints`: the `PCB_TRACE_T`
items of the net with an end on the start position, in net-list order
(source lines 341-345). -/
def onStartPoint (in_net : List TRACK) (aStartPos : Point) : List TRACK :=
  in_net.filter fun t =>
    t.kind == ItemKind.trace && (t.start == aStartPos || t.end_ == aStartPos)

/-- The candidate loop of `TracksInNetBetweenPoints` (source lines 349-370):
try `checkConnectedTo` on each candidate; return the first success; append
each failure's text (prefixed by a newline and tab) to the running
`per_path_problem_text`. -/
def tnbpLoop (aBoard : Board) (in_net : List TRACK) (aGoalPos aStartPos : Point) :
    List TRACK → String → Except String (List TRACK)
  | [], perPathProblemText =>
    Except.error (noCleanPathMsg aStartPos aGoalPos ++ perPathProblemText)
  | t :: ts, perPathProblemText =>
    match checkConnectedTo aBoard in_net aGoalPos aStartPos t with
    | Except.ok inBetweenPts => Except.ok inBetweenPts
    | Except.error m => tnbpLoop aBoard in_net aGoalPos aStartPos ts
        (perPathProblemText ++ "\n\t" ++ m)

/-- `BOARD::TracksInNetBetweenPoints( aStartPos, aGoalPos, aNetCode )`
(source lines 335-378). -/
def TracksInNetBetweenPoints (b : Board) (aStartPos aGoalPos : Point) (aNetCode : Int) :
    Except String (List TRACK) :=
  let in_net := TracksInNet b aNetCode
  tnbpLoop b in_net aGoalPos aStartPos (onStartPoint in_net aStartPos) ""

/-- Whether an `Except` result is a success. -/
def exceptOk {ε α : Type} : Except ε α → Bool
  | Except.ok _ => true
  | Except.error _ => false

/-- Mark the track with the given identity BUSY (the C++
`candidate->SetState( BUSY, true )` mutates one object; identities are
unique on a well-formed board, so the id-keyed update touches that track). -/
def markBusy (l : List TRACK) (tid : Nat) : List TRACK :=
  l.map fun t => if t.id = tid then { t with busy := true } else t

/-- Clear the BUSY flag of the track with the given identity
(`via->SetState( BUSY, false )`). -/
def unmarkBusy (l : List TRACK) (tid : Nat) : List TRACK :=
  l.map fun t => if t.id = tid then { t with busy := false } else t

/-- Modelled from the spec: `TRACK::GetVia( NULL, aPosition, aLayerMask )`
(declared in `class_track.h`, implementation not in the given sources):
the first via of the `m_Track` list whose position is `aPosition`, that is
not BUSY, and whose layer span intersects the mask (spec section 4.2 step
2: "a Via exists at position intersecting layerMask"). -/
def getVia (l : List TRACK) (aPosition : Point) (aLayerMask : LSET) : Option TRACK :=
  l.find? fun t =>
    t.kind == ItemKind.via && !t.busy && t.start == aPosition
      && (t.layerSet &&& aLayerMask) != 0

/-- Modelled from the spec: the free function `::GetTrack( aStartTrace,
NULL, aPosition, aLayerMask )` (implementation not in the given sources;
the source's own comment at `MarkTrace` records that it "does not consider
tracks flagged BUSY"): scan the list from the given suffix for the first
non-BUSY item with an end at `aPosition` on an intersecting layer; spec
section 4.2 step 3 enumerates "not-yet-visited segments/vias whose layer
mask intersects layerMask and which touch position at one endpoint".
Returns the found item and the list suffix behind it (the C++ continues a
second search from `found->Next()`). -/
def getTrackSplit : List TRACK → Point → LSET → Option (TRACK × List TRACK)
  | [], _, _ => none
  | t :: ts, aPosition, aLayerMask =>
    if !t.busy && (t.start == aPosition || t.end_ == aPosition)
        && (t.layerSet &&& aLayerMask) != 0 then
      some (t, ts)
    else
      getTrackSplit ts aPosition aLayerMask

/-- The candidate enumeration of the `chainMarkedSegments` inner loop
(source lines 437-460): every item of `m_Track` that is not BUSY, is not
the via just absorbed this step, touches the position at one end and
intersects the layer mask.  The C++ walks the list with `::GetTrack`,
skipping BUSY items and the absorbed via, returning as soon as a second
match shows up; the filtered list carries the same information. -/
def candidatesAt (l : List TRACK) (aPosition : Point) (aLayerMask : LSET)
    (via? : Option TRACK) : List TRACK :=
  l.filter fun t =>
    !t.busy && (t.start == aPosition || t.end_ == aPosition)
      && (t.layerSet &&& aLayerMask) != 0
      && (match via? with
          | some v => t.id != v.id
          | none => true)

/-- Result of one iteration of the `chainMarkedSegments` loop: either the
walk returns (with the final collected list and board), or it continues
with a new board (one more BUSY mark), position, mask and collected list. -/
inductive ChainStepRes where
  | done (r : List TRACK × Board)
  | cont (b : Board) (pos : Point) (mask : LSET) (acc : List TRACK)

/-- The effective layer mask after the via handling of a
`chainMarkedSegments` iteration (source lines 415-420): a found via sets
the mask to its full layer span. -/
def stepMask (b : Board) (aPosition : Point) (layerSet : LSET) : LSET :=
  match getVia b.tracks aPosition layerSet with
  | some via => via.layerSet
  | none => layerSet

/-- The collected list after the via handling of a `chainMarkedSegments`
iteration (source lines 415-421): the found via is pushed onto the list. -/
def stepList (b : Board) (aPosition : Point) (layerSet : LSET) (aList : List TRACK) :
    List TRACK :=
  match getVia b.tracks aPosition layerSet with
  | some via => aList ++ [via]
  | none => aList

/-- One iteration of the `for( ; ; )` loop of `BOARD::chainMarkedSegments`
(source lines 399-482): pad at the position ⇒ return; else absorb a via at
the position (append it, widen the mask to its span); then count the
non-BUSY connected items — exactly one ⇒ flag it BUSY, append it, narrow
the mask to its own layer set and continue from its other end; zero or more
than one ⇒ return. -/
def chainStep (b : Board) (aPosition : Point) (layerSet : LSET) (aList : List TRACK) :
    ChainStepRes :=
  if (boardGetPad b aPosition layerSet).isSome then
    ChainStepRes.done (aList, b)
  else
    match candidatesAt b.tracks aPosition (stepMask b aPosition layerSet)
        (getVia b.tracks aPosition layerSet) with
    | [candidate] =>
      ChainStepRes.cont { b with tracks := markBusy b.tracks candidate.id }
        (otherEnd candidate aPosition) candidate.layerSet
        (stepList b aPosition layerSet aList ++ [candidate])
    | _ => ChainStepRes.done (stepList b aPosition layerSet aList, b)

/-- The `chainMarkedSegments` loop, driven by structural fuel.  Each
continuing iteration flags one previously non-BUSY track, so the loop is
bounded by the number of non-BUSY tracks; with fuel above that bound the
fuel-exhausted branch is never taken (`chainMSAux_fuel_stable` below). -/
def chainMSAux : Nat → Board → Point → LSET → List TRACK → (List TRACK × Board)
  | 0, b, _, _, acc => (acc, b)
  | fuel + 1, b, pos, mask, acc =>
    match chainStep b pos mask acc with
    | ChainStepRes.done r => r
    | ChainStepRes.cont b1 pos1 mask1 acc1 => chainMSAux fuel b1 pos1 mask1 acc1

/-- The number of tracks of a board not currently flagged BUSY: the bound
on the chain walk's iteration count. -/
def unbusyCount (b : Board) : Nat :=
  (b.tracks.filter fun t => !t.busy).length

/-- `BOARD::chainMarkedSegments( aPosition, aLayerSet, aList )` (source
lines 381-485): nothing to do on a board without tracks, otherwise run the
loop with sufficient fuel.  The collected items are appended to `aList`
(the C++ pushes into the caller's vector) and the BUSY marks live in the
returned board. -/
def chainMarkedSegments (b : Board) (aPosition : Point) (aLayerSet : LSET)
    (aList : List TRACK) : (List TRACK × Board) :=
  if b.tracks.isEmpty then (aList, b)
  else chainMSAux (unbusyCount b + 1) b aPosition aLayerSet aList

/-- Euclidean length of a segment, rounded to an integer.  The C++ computes
these lengths in floating point (`TRACK::GetLength`, `SEG::Length`); the
integer square root stands in for them — no claim below depends on the
numeric value of a length. -/
def segLength (p q : Point) : Int :=
  Int.ofNat (Nat.sqrt (((p.x - q.x) * (p.x - q.x) + (p.y - q.y) * (p.y - q.y)).toNat))

/-- The outputs of `BOARD::MarkTrace`: the returned track (by identity),
the three optional out-parameters (`none` models both "pointer was null"
and "never written"; `some v` means `v` was the last value stored), and the
board state (BUSY flags, list order) on return. -/
structure MTOut where
  ret : Option Nat
  count : Option Int
  traceLength : Option Int
  padToDie : Option Int
  board : Board
deriving DecidableEq

/-- The loop at the head of `MarkTrace` (source lines 1851-1853): clear the
BUSY flag of every track of the board. -/
def clearAllBusy (l : List TRACK) : List TRACK :=
  l.map fun t => { t with busy := false }

/-- Find a board track by identity (dereference the C++ `TRACK*`). -/
def lookupTrack (b : Board) (tid : Nat) : Option TRACK :=
  b.tracks.find? fun t => t.id == tid

/-- The `firstTrack` search of `MarkTrace` (source lines 1995-2008): split
the track list at the first BUSY item, returning (prefix before it, the
item, suffix after it); `none` when no track is BUSY. -/
def splitAtFirstBusy : List TRACK → Option (List TRACK × TRACK × List TRACK)
  | [] => none
  | t :: ts =>
    if t.busy then some ([], t, ts)
    else
      match splitAtFirstBusy ts with
      | some (pre, f, post) => some (t :: pre, f, post)
      | none => none

/-- The matches seen by the `while`-scan of the via post-pass (successive
`::GetTrack( track->Next(), ... )` calls): the non-BUSY items of the list
suffix touching the position on an intersecting layer. -/
def laterMatches (rest : List TRACK) (aPosition : Point) (aLayerMask : LSET) :
    List TRACK :=
  rest.filter fun t =>
    !t.busy && (t.start == aPosition || t.end_ == aPosition)
      && (t.layerSet &&& aLayerMask) != 0

/-- One item of the via post-pass of `MarkTrace` (source lines 1927-1984):
a via of the collected list other than the start item is flagged BUSY; then
the other (non-BUSY) tracks at its position are scanned — if none, the via
stays on the track; if some exist and any later one sits on a different
layer than the first, the via belongs to another track and its flag is
cleared again. -/
def viaPostStep (aTraceId : Nat) (b : Board) (item : TRACK) : Board :=
  if item.kind == ItemKind.via && item.id != aTraceId then
    let b1 := { b with tracks := markBusy b.tracks item.id }
    match getTrackSplit b1.tracks item.start item.layerSet with
    | none => b1
    | some (t0, rest) =>
      if (laterMatches rest item.start item.layerSet).any fun t => t.layer != t0.layer
      then { b1 with tracks := unmarkBusy b1.tracks item.id }
      else b1
  else b

/-- The via post-pass of `MarkTrace` (source lines 1921-1984): examine the
collected list backwards (`for( int i = trackList.size() - 1; i>=0; --i )`),
threading the board's BUSY state. -/
def viaPostPass (aTraceId : Nat) (trackList : List TRACK) (b : Board) : Board :=
  trackList.reverse.foldl (viaPostStep aTraceId) b

/-- State of the length pass of `MarkTrace`: accumulated length, and the
pad found at each end of the trace with the distance from the track end to
the pad position (`s_pad`/`dist_fromstart`, `e_pad`/`dist_fromend`). -/
structure LenState where
  fullLen : Int
  spad : Option (PAD × Int)
  epad : Option (PAD × Int)
deriving DecidableEq

/-- The `s_pad`-first assignment of the length pass (source lines
2040-2083): store into `s_pad` if free, else into `e_pad` if free, else
drop. -/
def assignPad (st : LenState) (pad : PAD) (dist : Int) : LenState :=
  match st.spad with
  | none => { st with spad := some (pad, dist) }
  | some _ =>
    match st.epad with
    | none => { st with epad := some (pad, dist) }
    | some _ => st

/-- Whether the two optional pads are the same pad (the C++ pointer
comparison `pad_on_start == pad_on_end`, with `pad_on_start` non-null). -/
def padSame : Option PAD → Option PAD → Bool
  | some a, some b => a.id == b.id
  | _, _ => false

/-- One track of the length pass of `MarkTrace` (source lines 2019-2088):
skip non-BUSY items; a segment whose two ends land in the same pad
contributes nothing; otherwise add its length and record an end pad on
either side. -/
def lenStep (b : Board) (st : LenState) (t : TRACK) : LenState :=
  if !t.busy then st
  else
    let padOnStart := boardGetPad b t.start t.layerSet
    let padOnEnd := boardGetPad b t.end_ t.layerSet
    if padSame padOnStart padOnEnd then st
    else
      let st1 := { st with fullLen := st.fullLen + segLength t.start t.end_ }
      let st2 := match padOnStart with
        | some p => assignPad st1 p (segLength t.start p.pos)
        | none => st1
      match padOnEnd with
      | some p => assignPad st2 p (segLength t.end_ p.pos)
      | none => st2

/-- The tail of `MarkTrace` after the via post-pass (source lines
1995-2149): find `firstTrack` (first BUSY item), run the length pass from
it, then either reorder the list (BUSY items of the suffix move to just
after `firstTrack`, in reverse encounter order — the C++ unlinks each and
re-inserts it before `firstTrack->Next()`), or, when a trace length is
requested without reordering, clear every BUSY flag, counting; finally add
the end-pad distances and pad-to-die lengths and store the outputs. -/
def mtFinish (b : Board) (wantCount wantLen wantPadDie aReorder : Bool)
    (count0 len0 : Option Int) : MTOut :=
  match splitAtFirstBusy b.tracks with
  | none =>
    { ret := none, count := count0, traceLength := len0, padToDie := none, board := b }
  | some (pre, f, post) =>
    let st := (f :: post).foldl (lenStep b) ⟨0, none, none⟩
    let reordered : Board × Int :=
      if aReorder then
        let moved := post.filter fun t => t.busy
        let rest := post.filter fun t => !t.busy
        ({ b with tracks := pre ++ f :: (moved.reverse ++ rest) },
          1 + (moved.length : Int))
      else if wantLen then
        ({ b with tracks := pre ++ (f :: post).map fun t => { t with busy := false } },
          (((f :: post).filter fun t => t.busy).length : Int))
      else
        (b, 1)
    let fullLen := st.fullLen
      + (match st.spad with | some sd => sd.2 | none => 0)
      + (match st.epad with | some ed => ed.2 | none => 0)
    let lenPadToDie : Int :=
      (match st.spad with | some sd => sd.1.padToDie | none => 0)
      + (match st.epad with | some ed => ed.1.padToDie | none => 0)
    { ret := some f.id
      count := if wantCount then some reordered.2 else none
      traceLength := if wantLen then some fullLen else none
      padToDie := if wantPadDie then some lenPadToDie else none
      board := reordered.1 }

/-- `BOARD::MarkTrace( aTrace, aCount, aTraceLength, aPadToDieLength,
aReorder )` (source lines 1835-2150).  `aTrace?` is the start item by
identity (`none` = null pointer); the `want*` booleans model whether each
out-pointer is non-null.  The start item must be a track of the board (C++
precondition: `aTrace` points into `m_Track`); the lookup-failure branch is
unreachable under it. -/
def markTrace (b : Board) (aTrace? : Option Nat)
    (wantCount wantLen wantPadDie aReorder : Bool) : MTOut :=
  let count0 : Option Int := if wantCount then some 0 else none
  let len0 : Option Int := if wantLen then some 0 else none
  match aTrace? with
  | none =>
    { ret := none, count := count0, traceLength := len0, padToDie := none, board := b }
  | some aid =>
    match lookupTrack b aid with
    | none =>
      { ret := none, count := count0, traceLength := len0, padToDie := none, board := b }
    | some t0 =>
      let b1 : Board := { b with tracks := markBusy (clearAllBusy b.tracks) aid }
      let layerSet := t0.layerSet
      let collected : Option (List TRACK × Board) :=
        if t0.kind == ItemKind.via then
          match getTrackSplit b1.tracks t0.start layerSet with
          | none => some ([t0], b1)
          | some (segm1, rest1) =>
            match getTrackSplit rest1 t0.start layerSet with
            | none => some (chainMarkedSegments b1 t0.start segm1.layerSet [t0])
            | some (segm2, rest2) =>
              match getTrackSplit rest2 t0.start layerSet with
              | some _ => none
              | none =>
                let r1 := chainMarkedSegments b1 t0.start segm1.layerSet [t0]
                some (chainMarkedSegments r1.2 t0.start segm2.layerSet r1.1)
        else
          let r1 := chainMarkedSegments b1 t0.start layerSet []
          let r2 := chainMarkedSegments r1.2 t0.end_ layerSet []
          some ([t0] ++ r1.1 ++ r2.1, r2.2)
      match collected with
      | none =>
        { ret := some aid, count := if wantCount then some 1 else none,
          traceLength := len0, padToDie := none, board := b1 }
      | some (trackList, b2) =>
        mtFinish (viaPostPass aid trackList b2) wantCount wantLen wantPadDie aReorder
          count0 len0

/-- `ADD_MODE`: `ADD_APPEND` or insert mode. -/
inductive AddMode where
  | append
  | insert
deriving DecidableEq

/-- A `BOARD_ITEM` as dispatched by the type switch of `BOARD::Add` /
`BOARD::Remove`: one constructor per `case` group of the switch, carrying
the data the claims need (full records for tracks and footprints, bare
identity for the containers no claim inspects further). -/
inductive BITEM where
  | netinfoItem (netId : Int)
  | markerItem (id : Nat)
  | zoneAreaItem (id : Nat) (netCode : Int)
  | trackItem (t : TRACK)
  | zoneSegItem (id : Nat)
  | moduleItem (m : MODULE)
  | drawingItem (id : Nat)
  | unsupportedItem (id : Nat)
deriving DecidableEq

/-- The identities a board item contributes to the connectivity index: a
track registers itself, a footprint registers its pads, a zone outline
registers itself; non-connectable items register nothing. -/
def connIds : BITEM → List Nat
  | BITEM.trackItem t => [t.id]
  | BITEM.moduleItem m => m.pads.map PAD.id
  | BITEM.zoneAreaItem i _ => [i]
  | _ => []

/-- Modelled from the spec: `CONNECTIVITY_DATA::Add` (implementation not in
the given sources).  Per spec sections 3 and 4.1 it registers each
connectable item under its current net (items with net 0 in none) and
indexes its endpoint coordinates for exact-match lookup (two endpoints for
a segment, the single position for a via or a pad, no point entry for a
zone outline, whose extent is an area). -/
def connAddItem (c : ConnIndex) : BITEM → ConnIndex
  | BITEM.trackItem t =>
    { members := c.members ++ if t.netCode ≠ 0 then [(t.netCode, t.id)] else []
      spatial := c.spatial ++
        match t.kind with
        | ItemKind.trace => [(t.start, t.id), (t.end_, t.id)]
        | ItemKind.via => [(t.start, t.id)] }
  | BITEM.moduleItem m =>
    { members := c.members ++
        ((m.pads.filter fun p => p.netCode ≠ 0).map fun p => (p.netCode, p.id))
      spatial := c.spatial ++ (m.pads.map fun p => (p.pos, p.id)) }
  | BITEM.zoneAreaItem i n =>
    { members := c.members ++ if n ≠ 0 then [(n, i)] else []
      spatial := c.spatial }
  | _ => c

/-- Modelled from the spec: `CONNECTIVITY_DATA::Remove` (implementation not
in the given sources).  Per spec section 4.1 it deregisters the item: every
registration carrying one of the item's identities is dropped from the
member lists and the spatial structure. -/
def connRemoveItem (c : ConnIndex) (item : BITEM) : ConnIndex :=
  let ids := connIds item
  { members := c.members.filter fun e => decide (e.2 ∉ ids)
    spatial := c.spatial.filter fun e => decide (e.2 ∉ ids) }

/-- Erase the first track with the given identity (`DLIST::Remove` unlinks
the given node; identities are unique on a well-formed board). -/
def eraseTrackById : List TRACK → Nat → List TRACK
  | [], _ => []
  | t :: ts, i => if t.id = i then ts else t :: eraseTrackById ts i

/-- Erase the first module with the given identity (`DLIST::Remove`). -/
def eraseModuleById : List MODULE → Nat → List MODULE
  | [], _ => []
  | m :: ms, i => if m.id = i then ms else m :: eraseModuleById ms i

/-- `BOARD::Add( aBoardItem, aMode )` (source lines 875-958).  `none`
models a null pointer.  The returned flag reports whether `wxFAIL_MSG` was
signalled (null item, or an unhandled type — both abort before touching the
containers and the connectivity index).  On every handled type the item
goes into its container (append or insert per `aMode`) and the connectivity
index is notified once. -/
def BOARD_Add (b : Board) (item? : Option BITEM) (aMode : AddMode) : Board × Bool :=
  match item? with
  | none => (b, true)
  | some item =>
    match item with
    | BITEM.netinfoItem n =>
      ({ b with nets := b.nets ++ [n], conn := connAddItem b.conn item }, false)
    | BITEM.markerItem i =>
      ({ b with markers := b.markers ++ [i], conn := connAddItem b.conn item }, false)
    | BITEM.zoneAreaItem i _ =>
      ({ b with zoneAreas := b.zoneAreas ++ [i], conn := connAddItem b.conn item }, false)
    | BITEM.trackItem t =>
      -- insert mode places the track at the position chosen by
      -- `GetBestInsertPoint` (not in the given sources); per spec section 3
      -- the list order is only a locality hint, modelled here as push-front.
      ({ b with
          tracks := match aMode with
            | AddMode.append => b.tracks ++ [t]
            | AddMode.insert => t :: b.tracks
          conn := connAddItem b.conn item }, false)
    | BITEM.zoneSegItem i =>
      ({ b with
          zoneSegs := match aMode with
            | AddMode.append => b.zoneSegs ++ [i]
            | AddMode.insert => i :: b.zoneSegs
          conn := connAddItem b.conn item }, false)
    | BITEM.moduleItem m =>
      ({ b with
          modules := match aMode with
            | AddMode.append => b.modules ++ [m]
            | AddMode.insert => m :: b.modules
          statusPcb := 0
          conn := connAddItem b.conn item }, false)
    | BITEM.drawingItem i =>
      ({ b with
          drawings := match aMode with
            | AddMode.append => b.drawings ++ [i]
            | AddMode.insert => i :: b.drawings
          conn := connAddItem b.conn item }, false)
    | BITEM.unsupportedItem _ => (b, true)

/-- `BOARD::Remove( aBoardItem )` (source lines 961-1027): take the item
out of its container (first occurrence, as the C++ unlinks the node or
erases the first vector match), then notify the connectivity index — also
on the unhandled-type branch, whose `wxFAIL_MSG` does not return early. -/
def BOARD_Remove (b : Board) (item : BITEM) : Board :=
  let b1 :=
    match item with
    | BITEM.netinfoItem n => { b with nets := b.nets.erase n }
    | BITEM.markerItem i => { b with markers := b.markers.erase i }
    | BITEM.zoneAreaItem i _ => { b with zoneAreas := b.zoneAreas.erase i }
    | BITEM.trackItem t => { b with tracks := eraseTrackById b.tracks t.id }
    | BITEM.zoneSegItem i => { b with zoneSegs := b.zoneSegs.erase i }
    | BITEM.moduleItem m => { b with modules := eraseModuleById b.modules m.id }
    | BITEM.drawingItem i => { b with drawings := b.drawings.erase i }
    | BITEM.unsupportedItem _ => b
  { b1 with conn := connRemoveItem b1.conn item }

/-- The branch of `BOARD::ReplaceNetlist` executed for a netlist component
whose footprint is new to the board, outside dry-run (source lines
2502-2512): `Add( footprint, ADD_APPEND )` — which itself already notifies
the connectivity index — followed by a second, explicit
`m_connectivity->Add( footprint )`. -/
def replaceNetlistAddNew (b : Board) (footprint : MODULE) : Board :=
  let b1 := (BOARD_Add b (some (BITEM.moduleItem footprint)) AddMode.append).1
  { b1 with conn := connAddItem b1.conn (BITEM.moduleItem footprint) }

/-- How many times an item identity is registered in the connectivity
index's member lists. -/
def memberCount (c : ConnIndex) (itemId : Nat) : Nat :=
  (c.members.filter fun e => e.2 == itemId).length

/-! Concrete boards used by the witnesses and counterexamples below. -/

/-- An empty connectivity index. -/
def emptyConn : ConnIndex := ⟨[], []⟩

/-- A board with no items at all. -/
def emptyBoard : Board :=
  { tracks := [], zoneSegs := [], modules := [], markers := [], zoneAreas := []
    drawings := [], nets := [], statusPcb := 0, conn := emptyConn }

/-- A copper segment on layer 0 of net 1, not BUSY. -/
def mkSeg (i : Nat) (p q : Point) : TRACK :=
  { id := i, kind := ItemKind.trace, start := p, end_ := q, layer := 0
    layerSet := 1, netCode := 1, busy := false }

/-- Net 1 is exactly an unbranched three-segment chain
(0,0)–(10,0)–(20,0)–(30,0); no pads, no vias. -/
def chainBoard : Board :=
  { emptyBoard with
    tracks := [mkSeg 1 ⟨0, 0⟩ ⟨10, 0⟩, mkSeg 2 ⟨10, 0⟩ ⟨20, 0⟩,
               mkSeg 3 ⟨20, 0⟩ ⟨30, 0⟩]
    nets := [1] }

/-- A board holding a single isolated copper segment. -/
def singleSegBoard : Board :=
  { emptyBoard with tracks := [mkSeg 1 ⟨0, 0⟩ ⟨10, 0⟩], nets := [1] }

/-- Four segments of net 1 forming a closed square loop. -/
def loopBoard : Board :=
  { emptyBoard with
    tracks := [mkSeg 1 ⟨0, 0⟩ ⟨10, 0⟩, mkSeg 2 ⟨10, 0⟩ ⟨10, 10⟩,
               mkSeg 3 ⟨10, 10⟩ ⟨0, 10⟩, mkSeg 4 ⟨0, 10⟩ ⟨0, 0⟩]
    nets := [1] }

/-- A board with one module holding one pad of net 1 at (10,0) on layer 0,
and one segment of net 1 ending there. -/
def padBoard : Board :=
  { emptyBoard with
    tracks := [mkSeg 1 ⟨10, 0⟩ ⟨20, 0⟩]
    modules := [⟨50, [⟨7, ⟨10, 0⟩, 1, 1, 0⟩]⟩]
    nets := [1] }

/-- A footprint with a single pad (identity 7) on net 1. -/
def fp7 : MODULE := ⟨100, [⟨7, ⟨0, 0⟩, 1, 1, 0⟩]⟩

/-- The error payload of an `Except`, empty string on success. -/
def errorText {α : Type} : Except String α → String
  | Except.error m => m
  | Except.ok _ => ""

/-! The claims. -/

/-- C9: `BOARD::Add` called with a null item signals a failure
(`wxFAIL_MSG`) and returns at once: the board — item containers, net
registry, status and connectivity index — is exactly as before, with no
partial insertion. -/
theorem add_null_aborts_unmodified (b : Board) (aMode : AddMode) :
    BOARD_Add b none aMode = (b, true) := rfl

/-- C10: `BOARD::MarkTrace` called with a null starting track returns null
after storing 0 through the count and trace-length output pointers when
they are supplied (the pad-to-die output is never written on this path),
leaving the board — including every BUSY flag — untouched. -/
theorem markTrace_null_trace (b : Board) (wantCount wantLen wantPadDie aReorder : Bool) :
    markTrace b none wantCount wantLen wantPadDie aReorder =
      { ret := none
        count := if wantCount then some 0 else none
        traceLength := if wantLen then some 0 else none
        padToDie := none
        board := b } := rfl

/-- C1 (code bug): on a net whose copper is exactly the unbranched
three-segment chain (0,0)–(10,0)–(20,0)–(30,0), `TracksInNetBetweenPoints`
of the two chain ends does not succeed: the walk consumes all three
segments, the `while( in_net.size() )` guard sees the empty worklist before
the `next == aGoal` success test can run, `checkConnectedTo` throws "not
enough tracks" even though the goal was reached, and the overall call
throws the composite failure. -/
theorem tracksInNetBetweenPoints_three_chain_throws :
    exceptOk (TracksInNetBetweenPoints chainBoard ⟨0, 0⟩ ⟨30, 0⟩ 1) = false ∧
      errorText (TracksInNetBetweenPoints chainBoard ⟨0, 0⟩ ⟨30, 0⟩ 1) =
        noCleanPathMsg ⟨0, 0⟩ ⟨30, 0⟩ ++ "\n\t" ++ notEnoughMsg ⟨0, 0⟩ ⟨30, 0⟩ := by
  constructor
  · decide
  · decide

/-- C3 (code bug): `ReplaceNetlist`'s new-footprint branch runs
`Add( footprint, ADD_APPEND )` — which already registers the footprint's
pads in the connectivity index — and then registers the same footprint a
second time, so afterwards the pad (identity 7, net 1) is a member of the
index twice, violating the exactly-once registration invariant. -/
theorem replaceNetlist_new_footprint_double_registration :
    memberCount (replaceNetlistAddNew emptyBoard fp7).conn 7 = 2 := by decide

/-- C2 (counterexample): `MarkTrace` on a single-segment board with
`aReorder = true` returns with the segment's BUSY marker — set during the
traversal — still set, so the transient visited marker is not reset on
every exit path for every argument combination. -/
theorem markTrace_reorder_leaves_busy_marker :
    (markTrace singleSegBoard (some 1) false false false true).board.tracks.map
        TRACK.busy = [true] := by decide

/-- C7: at any live iteration of the `checkConnectedTo` walk (worklist not
yet exhausted), if the goal is not yet reached and a pad's position equals
the current traversal position exactly while its layer set intersects the
current layer mask (`GetPadFast` succeeds), the candidate fails with the
intervening-pad diagnostic — unconditionally, whatever copper would let the
walk continue through that point. -/
theorem checkConnectedTo_blocking_pad (fuel : Nat) (aBoard : Board)
    (in_net : List TRACK) (next : Point) (lset : LSET) (aGoal aStart : Point)
    (aList : List TRACK) (hne : in_net ≠ []) (hgoal : next ≠ aGoal)
    (hpad : (GetPadFast aBoard next lset).isSome = true) :
    cctLoop (fuel + 1) aBoard in_net next lset aGoal aStart aList =
      Except.error (interveningPadMsg next aStart aGoal) := by
  match in_net with
  | [] => exact absurd rfl hne
  | t :: ts => simp [cctLoop, hgoal, hpad]

/-- Witness for C7: on the concrete board with a pad at (10,0), one live
iteration at position (10,0) fails with the intervening-pad diagnostic. -/
theorem checkConnectedTo_blocking_pad_witness :
    cctLoop 1 padBoard [mkSeg 1 ⟨10, 0⟩ ⟨20, 0⟩] ⟨10, 0⟩ 1 ⟨30, 0⟩ ⟨0, 0⟩ [] =
      Except.error (interveningPadMsg ⟨10, 0⟩ ⟨0, 0⟩ ⟨30, 0⟩) :=
  checkConnectedTo_blocking_pad 0 padBoard [mkSeg 1 ⟨10, 0⟩ ⟨20, 0⟩] ⟨10, 0⟩ 1
    ⟨30, 0⟩ ⟨0, 0⟩ [] (by decide) (by decide) (by decide)

/-- C4: one iteration of the chain walk behaves as specified. (i) A pad
exactly at the current position on the current mask stops the walk with
nothing consumed; otherwise (ii) a via at the position intersecting the
mask is appended and the mask widens to the via's full layer span; then
(iii) exactly one non-visited item touching the position is flagged BUSY,
appended, the mask narrows to its own layer set and the walk continues
from its other endpoint, while (iv) zero candidates or more than one
candidate stop the walk with no segment consumed at the branch position. -/
theorem chainMarkedSegments_step_behavior (fuel : Nat) (b : Board) (pos : Point)
    (mask : LSET) (acc : List TRACK) :
    ((boardGetPad b pos mask).isSome = true →
      chainMSAux (fuel + 1) b pos mask acc = (acc, b))
    ∧ (∀ v, getVia b.tracks pos mask = some v →
        stepMask b pos mask = v.layerSet ∧
          stepList b pos mask acc = acc ++ [v])
    ∧ (boardGetPad b pos mask = none →
        ∀ c, candidatesAt b.tracks pos (stepMask b pos mask)
            (getVia b.tracks pos mask) = [c] →
          c.busy = false ∧
            chainMSAux (fuel + 1) b pos mask acc =
              chainMSAux fuel { b with tracks := markBusy b.tracks c.id }
                (otherEnd c pos) c.layerSet (stepList b pos mask acc ++ [c]))
    ∧ (boardGetPad b pos mask = none →
        (candidatesAt b.tracks pos (stepMask b pos mask)
            (getVia b.tracks pos mask)).length ≠ 1 →
          chainMSAux (fuel + 1) b pos mask acc = (stepList b pos mask acc, b)) := by
  refine ⟨?_, ?_, ?_, ?_⟩
  · intro h
    simp [chainMSAux, chainStep, h]
  · intro v hv
    constructor <;> simp [stepMask, stepList, hv]
  · intro h c hc
    constructor
    · have hmem : c ∈ candidatesAt b.tracks pos (stepMask b pos mask)
          (getVia b.tracks pos mask) := by
        rw [hc]; exact List.mem_singleton_self c
      have hpred := List.of_mem_filter hmem
      simp only [Bool.and_eq_true, Bool.not_eq_true'] at hpred
      exact hpred.1.1.1
    · simp [chainMSAux, chainStep, h, hc]
  · intro h hlen
    rcases hl : candidatesAt b.tracks pos (stepMask b pos mask)
        (getVia b.tracks pos mask) with _ | ⟨c, _ | ⟨d, rest⟩⟩
    · simp [chainMSAux, chainStep, h, hl]
    · exact absurd (by rw [hl]; rfl) hlen
    · simp [chainMSAux, chainStep, h, hl]

/-- Witness for C4: on the concrete pad board, the walk arriving at the
pad position stops at once with nothing consumed. -/
theorem chainMarkedSegments_step_behavior_witness :
    chainMSAux 1 padBoard ⟨10, 0⟩ 1 [] = ([], padBoard) :=
  (chainMarkedSegments_step_behavior 0 padBoard ⟨10, 0⟩ 1 []).1 (by decide)

/-- Marking a track BUSY never increases the number of non-BUSY tracks. -/
theorem countUnbusy_markBusy_le (l : List TRACK) (i : Nat) :
    ((markBusy l i).filter fun t => !t.busy).length ≤
      (l.filter fun t => !t.busy).length := by
  induction l with
  | nil => simp [markBusy]
  | cons t ts ih =>
    simp only [markBusy, List.map_cons, List.filter_cons] at *
    by_cases hid : t.id = i
    · simp only [hid, if_pos rfl]
      by_cases hb : t.busy <;> simp [hb] <;> omega
    · simp only [if_neg hid]
      by_cases hb : t.busy <;> simp [hb] <;> omega

/-- Marking a not-yet-BUSY member of the list BUSY strictly decreases the
number of non-BUSY tracks. -/
theorem countUnbusy_markBusy_lt (l : List TRACK) (c : TRACK) (hc : c ∈ l)
    (hb : c.busy = false) :
    ((markBusy l c.id).filter fun t => !t.busy).length <
      (l.filter fun t => !t.busy).length := by
  induction l with
  | nil => cases hc
  | cons t ts ih =>
    by_cases hid : t.id = c.id
    · by_cases htb : t.busy
      · have hct : c ≠ t := by
          intro e; rw [e] at hb; rw [hb] at htb; cases htb
        have hcts : c ∈ ts := by
          rcases List.mem_cons.mp hc with h | h
          · exact absurd h hct
          · exact h
        simp only [markBusy, List.map_cons, List.filter_cons, hid, if_pos rfl]
        simp only [htb]
        simpa using ih hcts
      · simp only [markBusy, List.map_cons, List.filter_cons, hid, if_pos rfl]
        simp only [Bool.not_eq_true] at htb
        simp only [htb]
        have hle := countUnbusy_markBusy_le ts c.id
        simp only [markBusy] at hle
        simp
        omega
    · have hct : c ≠ t := fun e => hid (by rw [e])
      have hcts : c ∈ ts := by
        rcases List.mem_cons.mp hc with h | h
        · exact absurd h hct
        · exact h
      simp only [markBusy, List.map_cons, List.filter_cons, if_neg hid]
      by_cases htb : t.busy <;> simp [htb] <;> simpa [markBusy] using ih hcts

/-- A continuing chain-walk step strictly decreases the number of non-BUSY
tracks on the board. -/
theorem chainStep_cont_lt (b : Board) (pos : Point) (mask : LSET)
    (acc : List TRACK) (b1 : Board) (p1 : Point) (m1 : LSET) (a1 : List TRACK)
    (h : chainStep b pos mask acc = ChainStepRes.cont b1 p1 m1 a1) :
    unbusyCount b1 < unbusyCount b := by
  unfold chainStep at h
  by_cases hp : (boardGetPad b pos mask).isSome = true
  · rw [if_pos hp] at h
    cases h
  · rw [if_neg hp] at h
    rcases hl : candidatesAt b.tracks pos (stepMask b pos mask)
        (getVia b.tracks pos mask) with _ | ⟨c, _ | ⟨d, rest⟩⟩ <;> rw [hl] at h
    · cases h
    · injection h with e1 e2 e3 e4
      have hmem : c ∈ candidatesAt b.tracks pos (stepMask b pos mask)
          (getVia b.tracks pos mask) := by
        rw [hl]; exact List.mem_singleton_self c
      have hin := List.mem_of_mem_filter hmem
      have hpred := List.of_mem_filter hmem
      simp only [Bool.and_eq_true, Bool.not_eq_true'] at hpred
      rw [← e1]
      unfold unbusyCount
      exact countUnbusy_markBusy_lt b.tracks c hin hpred.1.1.1
    · cases h

/-- C5: the chain walk terminates within a number of iterations bounded by
the number of not-yet-visited track items: any two fuels strictly above
that count give the same result, because every continuing iteration flags
one previously non-BUSY item (never re-selecting a visited one), so the
fuel-exhaustion branch is never reached.  This holds on every board,
including boards containing a closed loop of segments (see the witness). -/
theorem chainMarkedSegments_fuel_stable :
    ∀ (n f1 f2 : Nat) (b : Board) (pos : Point) (mask : LSET) (acc : List TRACK),
      unbusyCount b ≤ n → n < f1 → n < f2 →
      chainMSAux f1 b pos mask acc = chainMSAux f2 b pos mask acc := by
  intro n
  induction n with
  | zero =>
    intro f1 f2 b pos mask acc hn h1 h2
    cases f1 with
    | zero => exact absurd h1 (Nat.not_lt_zero 0)
    | succ g1 =>
      cases f2 with
      | zero => exact absurd h2 (Nat.not_lt_zero 0)
      | succ g2 =>
        cases hstep : chainStep b pos mask acc with
        | done r => simp [chainMSAux, hstep]
        | cont b1 p1 m1 a1 =>
          have := chainStep_cont_lt b pos mask acc b1 p1 m1 a1 hstep
          omega
  | succ m ih =>
    intro f1 f2 b pos mask acc hn h1 h2
    cases f1 with
    | zero => exact absurd h1 (Nat.not_lt_zero (m + 1))
    | succ g1 =>
      cases f2 with
      | zero => exact absurd h2 (Nat.not_lt_zero (m + 1))
      | succ g2 =>
        cases hstep : chainStep b pos mask acc with
        | done r => simp [chainMSAux, hstep]
        | cont b1 p1 m1 a1 =>
          have hlt := chainStep_cont_lt b pos mask acc b1 p1 m1 a1 hstep
          simp only [chainMSAux, hstep]
          exact ih g1 g2 b1 p1 m1 a1 (by omega) (by omega) (by omega)

/-- The closed-loop board with the first loop segment already flagged, as
`MarkTrace` flags its start item before chaining: the walk entered at
(10,0) then traverses the whole loop and stops at the visited segment. -/
def loopBoardStarted : Board :=
  { loopBoard with tracks := markBusy loopBoard.tracks 1 }

/-- Witness for C5: entering the concrete four-segment closed-loop board,
fuel 4 (one above the non-visited count) and fuel 8 give the same walk
result — the walk does not cycle through the loop forever. -/
theorem chainMarkedSegments_fuel_stable_witness :
    chainMSAux 4 loopBoardStarted ⟨10, 0⟩ 1 [] =
      chainMSAux 8 loopBoardStarted ⟨10, 0⟩ 1 [] :=
  chainMarkedSegments_fuel_stable 3 4 8 loopBoardStarted ⟨10, 0⟩ 1 [] (by decide)
    (by decide) (by decide)

/-- `small` occurs contiguously inside `big`. -/
def strContains (big small : String) : Prop :=
  small.data <:+: big.data

/-- String append acts as list append on the underlying character data. -/
theorem strData_append (a b : String) : (a ++ b).data = a.data ++ b.data := rfl

/-- When every candidate fails, the candidate loop of
`TracksInNetBetweenPoints` produces a single error that extends the
accumulated problem text and contains every candidate's failure text. -/
theorem tnbpLoop_all_fail (aBoard : Board) (in_net : List TRACK)
    (aGoalPos aStartPos : Point) :
    ∀ (cs : List TRACK) (acc : String),
      (∀ c ∈ cs, exceptOk (checkConnectedTo aBoard in_net aGoalPos aStartPos c) = false) →
      ∃ M, tnbpLoop aBoard in_net aGoalPos aStartPos cs acc = Except.error M ∧
        acc.data <:+: M.data ∧
        ∀ c ∈ cs, ∀ m,
          checkConnectedTo aBoard in_net aGoalPos aStartPos c = Except.error m →
          m.data <:+: M.data := by
  intro cs
  induction cs with
  | nil =>
    intro acc hall
    refine ⟨noCleanPathMsg aStartPos aGoalPos ++ acc, rfl, ?_, ?_⟩
    · rw [strData_append]
      exact (List.suffix_append _ _).isInfix
    · intro c hc
      exact absurd hc (List.not_mem_nil c)
  | cons t ts ih =>
    intro acc hall
    have ht := hall t (List.mem_cons_self t ts)
    cases hcc : checkConnectedTo aBoard in_net aGoalPos aStartPos t with
    | ok l =>
      rw [hcc] at ht
      simp [exceptOk] at ht
    | error m =>
      have step : tnbpLoop aBoard in_net aGoalPos aStartPos (t :: ts) acc =
          tnbpLoop aBoard in_net aGoalPos aStartPos ts (acc ++ "\n\t" ++ m) := by
        simp [tnbpLoop, hcc]
      obtain ⟨M, hM, hinf, hrest⟩ :=
        ih (acc ++ "\n\t" ++ m) (fun c hc => hall c (List.mem_cons_of_mem t hc))
      refine ⟨M, by rw [step]; exact hM, ?_, ?_⟩
      · have h1 : acc.data <+: (acc ++ "\n\t" ++ m).data := by
          rw [strData_append, strData_append, List.append_assoc]
          exact List.prefix_append _ _
        exact h1.isInfix.trans hinf
      · intro c hc m' hm'
        rcases List.mem_cons.mp hc with rfl | hcts
        · rw [hcc] at hm'
          injection hm' with e
          subst e
          have h2 : m.data <:+ (acc ++ "\n\t" ++ m).data := by
            rw [strData_append]
            exact List.suffix_append _ _
          exact h2.isInfix.trans hinf
        · exact hrest c hcts m' hm'

/-- The candidate loop of `TracksInNetBetweenPoints` returns the chain of
the first succeeding candidate, once every earlier candidate has failed. -/
theorem tnbpLoop_first_success (aBoard : Board) (in_net : List TRACK)
    (aGoalPos aStartPos : Point) :
    ∀ (pre : List TRACK) (c : TRACK) (post : List TRACK) (acc : String)
      (l : List TRACK),
      (∀ c' ∈ pre, exceptOk (checkConnectedTo aBoard in_net aGoalPos aStartPos c') = false) →
      checkConnectedTo aBoard in_net aGoalPos aStartPos c = Except.ok l →
      tnbpLoop aBoard in_net aGoalPos aStartPos (pre ++ c :: post) acc = Except.ok l := by
  intro pre
  induction pre with
  | nil =>
    intro c post acc l _ hc
    simp [tnbpLoop, hc]
  | cons p ps ih =>
    intro c post acc l hpre hc
    have hp := hpre p (List.mem_cons_self p ps)
    cases hpc : checkConnectedTo aBoard in_net aGoalPos aStartPos p with
    | ok l2 =>
      rw [hpc] at hp
      simp [exceptOk] at hp
    | error m =>
      simp only [List.cons_append, tnbpLoop, hpc]
      exact ih c post (acc ++ "\n\t" ++ m) l
        (fun c' hc' => hpre c' (List.mem_cons_of_mem p hc')) hc

/-- C6: `TracksInNetBetweenPoints` tries the candidates touching the start
position in order: if every candidate's `checkConnectedTo` fails, the call
fails with one composite error containing each candidate's failure text;
and whenever a candidate succeeds after all earlier candidates failed, the
call returns that candidate's collected chain. -/
theorem tracksInNetBetweenPoints_candidate_policy (b : Board) (A B : Point)
    (n : Int) :
    ((∀ c ∈ onStartPoint (TracksInNet b n) A,
        exceptOk (checkConnectedTo b (TracksInNet b n) B A c) = false) →
      ∃ M, TracksInNetBetweenPoints b A B n = Except.error M ∧
        ∀ c ∈ onStartPoint (TracksInNet b n) A,
          ∀ m, checkConnectedTo b (TracksInNet b n) B A c = Except.error m →
            strContains M m)
    ∧ (∀ pre c post, onStartPoint (TracksInNet b n) A = pre ++ c :: post →
        (∀ c' ∈ pre, exceptOk (checkConnectedTo b (TracksInNet b n) B A c') = false) →
        ∀ l, checkConnectedTo b (TracksInNet b n) B A c = Except.ok l →
          TracksInNetBetweenPoints b A B n = Except.ok l) := by
  constructor
  · intro hall
    obtain ⟨M, hM, _, hrest⟩ := tnbpLoop_all_fail b (TracksInNet b n) B A
      (onStartPoint (TracksInNet b n) A) "" hall
    refine ⟨M, by simpa [TracksInNetBetweenPoints] using hM, ?_⟩
    intro c hc m hm
    exact hrest c hc m hm
  · intro pre c post heq hpre l hc
    have h := tnbpLoop_first_success b (TracksInNet b n) B A pre c post "" l hpre hc
    rw [show TracksInNetBetweenPoints b A B n =
        tnbpLoop b (TracksInNet b n) B A (onStartPoint (TracksInNet b n) A) "" from rfl,
      heq]
    exact h

/-- Witness for C6: on the concrete three-segment chain board every
candidate fails, and the composite error contains the failing candidate's
"not enough tracks" text. -/
theorem tracksInNetBetweenPoints_candidate_policy_witness :
    strContains (errorText (TracksInNetBetweenPoints chainBoard ⟨0, 0⟩ ⟨30, 0⟩ 1))
      (notEnoughMsg ⟨0, 0⟩ ⟨30, 0⟩) := by
  obtain ⟨M, hM, hrest⟩ :=
    (tracksInNetBetweenPoints_candidate_policy chainBoard ⟨0, 0⟩ ⟨30, 0⟩ 1).1 (by decide)
  have h2 := hrest (mkSeg 1 ⟨0, 0⟩ ⟨10, 0⟩) (by decide) (notEnoughMsg ⟨0, 0⟩ ⟨30, 0⟩)
    (by rfl)
  rw [hM]
  exact h2

/-- No registration of the given identities exists in the index. -/
def connUnregistered (c : ConnIndex) (ids : List Nat) : Prop :=
  (∀ e ∈ c.members, e.2 ∉ ids) ∧ (∀ e ∈ c.spatial, e.2 ∉ ids)

/-- Filtering an extended list back down restores it when the old part is
kept whole and the appended part is dropped whole. -/
theorem filter_append_restore {α : Type} (l add : List α) (p : α → Bool)
    (hl : ∀ a ∈ l, p a = true) (hadd : ∀ a ∈ add, p a = false) :
    (l ++ add).filter p = l := by
  rw [List.filter_append, List.filter_eq_self.mpr hl,
    List.filter_eq_nil_iff.mpr fun a ha => by simp [hadd a ha], List.append_nil]

/-- Deregistering an item that was not registered before undoes its
registration exactly. -/
theorem connRemove_connAdd (c : ConnIndex) (x : BITEM)
    (h : connUnregistered c (connIds x)) :
    connRemoveItem (connAddItem c x) x = c := by
  obtain ⟨hm, hs⟩ := h
  have keepM : ∀ e ∈ c.members, decide (e.2 ∉ connIds x) = true :=
    fun e he => decide_eq_true (hm e he)
  have keepS : ∀ e ∈ c.spatial, decide (e.2 ∉ connIds x) = true :=
    fun e he => decide_eq_true (hs e he)
  cases x with
  | trackItem t =>
    simp only [connAddItem, connRemoveItem]
    congr 1
    · refine filter_append_restore _ _ _ keepM ?_
      intro a ha
      refine decide_eq_false (not_not_intro ?_)
      by_cases hn : t.netCode ≠ 0
      · simp only [if_pos hn, List.mem_singleton] at ha
        subst ha
        simp [connIds]
      · simp only [if_neg hn] at ha
        exact absurd ha (List.not_mem_nil a)
    · refine filter_append_restore _ _ _ keepS ?_
      intro a ha
      refine decide_eq_false (not_not_intro ?_)
      cases hk : t.kind <;> rw [hk] at ha <;> simp only [List.mem_cons,
        List.mem_singleton, List.not_mem_nil, or_false] at ha
      · rcases ha with rfl | rfl <;> simp [connIds]
      · subst ha
        simp [connIds]
  | moduleItem m =>
    simp only [connAddItem, connRemoveItem]
    congr 1
    · refine filter_append_restore _ _ _ keepM ?_
      intro a ha
      refine decide_eq_false (not_not_intro ?_)
      obtain ⟨p, hp, rfl⟩ := List.mem_map.mp ha
      exact List.mem_map_of_mem PAD.id (List.mem_of_mem_filter hp)
    · refine filter_append_restore _ _ _ keepS ?_
      intro a ha
      refine decide_eq_false (not_not_intro ?_)
      obtain ⟨p, hp, rfl⟩ := List.mem_map.mp ha
      exact List.mem_map_of_mem PAD.id hp
  | zoneAreaItem i nn =>
    simp only [connAddItem, connRemoveItem]
    congr 1
    · refine filter_append_restore _ _ _ keepM ?_
      intro a ha
      refine decide_eq_false (not_not_intro ?_)
      by_cases hn : nn ≠ 0
      · simp only [if_pos hn, List.mem_singleton] at ha
        subst ha
        simp [connIds]
      · simp only [if_neg hn] at ha
        exact absurd ha (List.not_mem_nil a)
    · exact List.filter_eq_self.mpr keepS
  | netinfoItem n =>
    simp only [connAddItem, connRemoveItem]
    congr 1 <;> [exact List.filter_eq_self.mpr keepM; exact List.filter_eq_self.mpr keepS]
  | markerItem i =>
    simp only [connAddItem, connRemoveItem]
    congr 1 <;> [exact List.filter_eq_self.mpr keepM; exact List.filter_eq_self.mpr keepS]
  | zoneSegItem i =>
    simp only [connAddItem, connRemoveItem]
    congr 1 <;> [exact List.filter_eq_self.mpr keepM; exact List.filter_eq_self.mpr keepS]
  | drawingItem i =>
    simp only [connAddItem, connRemoveItem]
    congr 1 <;> [exact List.filter_eq_self.mpr keepM; exact List.filter_eq_self.mpr keepS]
  | unsupportedItem i =>
    simp only [connAddItem, connRemoveItem]
    congr 1 <;> [exact List.filter_eq_self.mpr keepM; exact List.filter_eq_self.mpr keepS]

/-- C8: for every board and every item not already registered (no index
entry carries one of its identities), `Add(x)` followed by `Remove(x)`
leaves the connectivity index — per-net membership and spatial lookup —
exactly as it was before the `Add`. -/
theorem add_remove_roundtrip_connectivity (b : Board) (x : BITEM) (aMode : AddMode)
    (h : connUnregistered b.conn (connIds x)) :
    (BOARD_Remove (BOARD_Add b (some x) aMode).1 x).conn = b.conn := by
  have key := connRemove_connAdd b.conn x h
  cases x with
  | netinfoItem n => simpa [BOARD_Add, BOARD_Remove] using key
  | markerItem i => simpa [BOARD_Add, BOARD_Remove] using key
  | zoneAreaItem i nn => simpa [BOARD_Add, BOARD_Remove] using key
  | trackItem t => cases aMode <;> simpa [BOARD_Add, BOARD_Remove] using key
  | zoneSegItem i => cases aMode <;> simpa [BOARD_Add, BOARD_Remove] using key
  | moduleItem m => cases aMode <;> simpa [BOARD_Add, BOARD_Remove] using key
  | drawingItem i => cases aMode <;> simpa [BOARD_Add, BOARD_Remove] using key
  | unsupportedItem i =>
    simpa [BOARD_Add, BOARD_Remove, connAddItem] using key

/-- Witness for C8: adding and removing a fresh segment on the empty board
restores the (empty) connectivity index. -/
theorem add_remove_roundtrip_connectivity_witness :
    (BOARD_Remove (BOARD_Add emptyBoard
        (some (BITEM.trackItem (mkSeg 9 ⟨1, 1⟩ ⟨2, 2⟩))) AddMode.append).1
      (BITEM.trackItem (mkSeg 9 ⟨1, 1⟩ ⟨2, 2⟩))).conn = emptyBoard.conn :=
  add_remove_roundtrip_connectivity emptyBoard
    (BITEM.trackItem (mkSeg 9 ⟨1, 1⟩ ⟨2, 2⟩)) AddMode.append
    ⟨by decide, by decide⟩

/-- If the first-BUSY search fails, no track of the list is BUSY. -/
theorem splitAtFirstBusy_none (l : List TRACK) (h : splitAtFirstBusy l = none) :
    ∀ t ∈ l, t.busy = false := by
  induction l with
  | nil => intro t ht; cases ht
  | cons t ts ih =>
    intro u hu
    by_cases hb : t.busy
    · simp [splitAtFirstBusy, hb] at h
    · simp only [splitAtFirstBusy, hb, if_neg] at h
      rcases List.mem_cons.mp hu with rfl | hts
      · simpa using hb
      · rcases hsp : splitAtFirstBusy ts with _ | p
        · exact ih hsp u hts
        · rw [hsp] at h
          obtain ⟨pre, f, post⟩ := p
          simp at h

/-- Everything before the first BUSY track is not BUSY. -/
theorem splitAtFirstBusy_pre (l : List TRACK) (pre : List TRACK) (f : TRACK)
    (post : List TRACK) (h : splitAtFirstBusy l = some (pre, f, post)) :
    ∀ t ∈ pre, t.busy = false := by
  induction l generalizing pre with
  | nil => simp [splitAtFirstBusy] at h
  | cons t ts ih =>
    by_cases hb : t.busy
    · simp only [splitAtFirstBusy, hb, if_pos] at h
      injection h with h1
      injection h1 with hpre hrest
      subst hpre
      intro u hu
      cases hu
    · simp only [splitAtFirstBusy, hb, if_neg] at h
      rcases hsp : splitAtFirstBusy ts with _ | p
      · rw [hsp] at h; cases h
      · rw [hsp] at h
        obtain ⟨pre1, f1, post1⟩ := p
        injection h with h1
        injection h1 with hpre hrest
        injection hrest with hf hpost
        subst hpre
        subst hf
        subst hpost
        intro u hu
        rcases List.mem_cons.mp hu with rfl | hu1
        · simpa using hb
        · exact ih pre1 hsp u hu1

/-- With `aReorder = false` and a trace length requested, the tail of
`MarkTrace` leaves no BUSY flag set: the prefix before the first BUSY item
had none, and the clearing loop wipes the rest. -/
theorem mtFinish_clears (b : Board) (wantCount wantPadDie : Bool)
    (c0 l0 : Option Int) :
    ((mtFinish b wantCount true wantPadDie false c0 l0).board.tracks.all
      fun u => !u.busy) = true := by
  rw [List.all_eq_true]
  intro u hu
  unfold mtFinish at hu
  rcases hsplit : splitAtFirstBusy b.tracks with _ | ⟨pre, f, post⟩ <;>
    rw [hsplit] at hu
  · simp [splitAtFirstBusy_none b.tracks hsplit u hu]
  · have hu2 : u ∈ pre ++ (f :: post).map (fun t => { t with busy := false }) := hu
    rcases List.mem_append.mp hu2 with hpre | hclear
    · simp [splitAtFirstBusy_pre b.tracks pre f post hsplit u hpre]
    · obtain ⟨t, _, rfl⟩ := List.mem_map.mp hclear
      rfl

/-- C2 (amended): `MarkTrace` clears every BUSY flag on the board at the
start of the call, but on return the flags set during the traversal remain
— except on the path with `aReorder = false` and a non-null `aTraceLength`
starting from a segment, where every BUSY flag is cleared before
returning, as proved here. -/
theorem markTrace_clears_busy_on_length_path (b : Board) (aid : Nat) (t0 : TRACK)
    (hfind : lookupTrack b aid = some t0) (hkind : t0.kind = ItemKind.trace)
    (wantCount wantPadDie : Bool) :
    ((markTrace b (some aid) wantCount true wantPadDie false).board.tracks.all
      fun u => !u.busy) = true := by
  simp only [markTrace, hfind, hkind]
  exact mtFinish_clears _ wantCount wantPadDie _ _

/-- Witness for C2's amended statement: on the single-segment board with
`aReorder = false` and a trace length requested, no BUSY flag survives. -/
theorem markTrace_clears_busy_on_length_path_witness :
    ((markTrace singleSegBoard (some 1) true true true false).board.tracks.all
      fun u => !u.busy) = true :=
  markTrace_clears_busy_on_length_path singleSegBoard 1 (mkSeg 1 ⟨0, 0⟩ ⟨10, 0⟩)
    (by decide) rfl true true
